import Mathlib

/-!
# Batch user fetching (`test_cases/javascript_async.js`)

A shallow embedding of the three asynchronous functions of the file:

* `fetchUserData`           one remote lookup wrapped in `try`/`catch`;
* `fetchMultipleUsers`      `Promise.all` join followed by a non-null filter;
* `fetchMultipleUsersSafe`  `Promise.allSettled` join, keep the fulfilled
                            results, then the same non-null filter.

The host operations (`fetch`, `response.json()`, `console.error`) are
collaborators: the network is a parameter that decides, for every request, how
the remote side answers; every host call is recorded in a trace.  An
asynchronous function is a small state machine that is resumed at its `await`
points, and a batch run interleaves these machines under an arbitrary
schedule, so completion order is a parameter of every statement.
-/

namespace JavascriptAsync

/-! ## Values -/

/-- JavaScript values that flow through the functions: the result of
`response.json()` and the `null` returned by the `catch` branch. -/
inductive JsValue where
  | null
  | undefined
  | bool (b : Bool)
  | num (n : Int)
  | str (s : String)
  | arr (items : List JsValue)
  | obj (fields : List (String × JsValue))

/-- The test `v === null`. -/
def JsValue.isNull : JsValue → Bool
  | .null => true
  | _ => false

/-- A thrown value or rejection reason: an error object with name and message. -/
structure JsError where
  name : String
  message : String
deriving DecidableEq, Repr

/-- The state in which a promise settles. It is also the shape of the result
objects of `Promise.allSettled`: `status` is the constructor, `value` and
`reason` are the fields. -/
inductive Settled (α : Type) where
  | fulfilled (value : α)
  | rejected (reason : JsError)

/-- The test `result.status === 'fulfilled'`. -/
def Settled.isFulfilled {α : Type} : Settled α → Bool
  | .fulfilled _ => true
  | .rejected _ => false

/-- The property read `result.value`; a rejected result object has no such
property, so the read gives `undefined`. -/
def Settled.value : Settled JsValue → JsValue
  | .fulfilled v => v
  | .rejected _ => .undefined

/-- A caller supplied identifier, interpolated into the request address: a string,
or a number that is a non-negative safe integer (below `2 ^ 53`), the range in
which a number is an exact integer and is printed in plain decimal digits. -/
inductive UserId where
  | num (n : Fin 9007199254740992)
  | str (s : String)
deriving DecidableEq, Repr

/-- String conversion performed by the template literal: a safe integer gives
its decimal digits, a string is taken as it is. -/
def UserId.toText : UserId → String
  | .num n => toString n.val
  | .str s => s

/-- The template literal of the request address: the path prefix followed by
the interpolated identifier. -/
def url (userId : UserId) : String :=
  "/api/users/" ++ userId.toText

/-! ## The remote side -/

/-- How the remote side answers one request: `fetch` rejects, or it resolves
with a response that has an `ok` flag, a `status`, and a body on which
`response.json()` either resolves with a value or rejects. -/
inductive Reply where
  | failure (reason : JsError)
  | response (ok : Bool) (status : Nat) (body : Except JsError JsValue)

/-- The network: the answer to the request with a given sequence number
(how many requests were issued before it) and address. -/
abbrev Network := Nat → String → Reply

/-- Host calls and function entries, in the order in which they happen. -/
inductive Event where
  | invoke (userId : UserId)
  | request (address : String)
  | decode
  | consoleError (label : String) (error : JsError)

abbrev Trace := List Event

/-- Recognises `fetch` calls. -/
def Event.isRequest : Event → Bool
  | .request _ => true
  | _ => false

/-- The identifier with which `fetchUserData` was entered, for entry events. -/
def Event.invoked? : Event → Option UserId
  | .invoke userId => some userId
  | _ => none

/-- The address passed to `fetch`, for request events. -/
def Event.requested? : Event → Option String
  | .request address => some address
  | _ => none

/-- Number of requests issued so far. -/
def numRequests (trace : Trace) : Nat :=
  trace.countP Event.isRequest

/-- The error object built for a response whose `ok` flag is false. -/
def httpError (status : Nat) : JsError :=
  { name := "Error", message := "HTTP error! status: " ++ toString status }

/-- The `console.error` call of the `catch` block. -/
def logFailure (error : JsError) : Event :=
  .consoleError "Failed to fetch user:" error

/-! ## `fetchUserData` -/

/-- The `try` block once the remote answer is known: the value it returns or
the error it throws, with the host calls it makes after `fetch`. -/
def tryBlock : Reply → Except JsError JsValue × List Event
  | .failure reason => (.error reason, [])
  | .response ok status body =>
      if !ok then (.error (httpError status), [])
      else
        match body with
        | .error reason => (.error reason, [.decode])
        | .ok data => (.ok data, [.decode])

/-- One complete run of `fetchUserData`: enter, issue the request, run the
`try` block, and on a throw log it and return `null`. -/
def fetchUserData (net : Network) (trace : Trace) (userId : UserId) :
    Settled JsValue × Trace :=
  let address := url userId
  let reply := net (numRequests trace) address
  let trace := trace ++ [.invoke userId, .request address]
  match tryBlock reply with
  | (.ok data, events) => (.fulfilled data, trace ++ events)
  | (.error error, events) => (.fulfilled .null, trace ++ events ++ [logFailure error])

/-! ## Asynchronous execution -/

/-- An invocation of `fetchUserData` between two resumptions: suspended at
`await fetch(...)`, suspended at `await response.json()`, or finished with
its promise settled. -/
inductive Task where
  | awaitFetch (reply : Reply)
  | awaitJson (body : Except JsError JsValue)
  | settled (state : Settled JsValue)

/-- The synchronous part of a call: everything up to the first `await`. -/
def startFetchUserData (net : Network) (trace : Trace) (userId : UserId) : Task × Trace :=
  let address := url userId
  (.awaitFetch (net (numRequests trace) address),
    trace ++ [.invoke userId, .request address])

/-- Resume a suspended invocation and run it to its next `await` or to its end. -/
def resume : Task → Task × List Event
  | .awaitFetch (.failure reason) => (.settled (.fulfilled .null), [logFailure reason])
  | .awaitFetch (.response ok status body) =>
      if !ok then (.settled (.fulfilled .null), [logFailure (httpError status)])
      else (.awaitJson body, [.decode])
  | .awaitJson (.error reason) => (.settled (.fulfilled .null), [logFailure reason])
  | .awaitJson (.ok data) => (.settled (.fulfilled data), [])
  | .settled state => (.settled state, [])

/-- Whether the promise of an invocation is settled. -/
def Task.isSettled : Task → Bool
  | .settled _ => true
  | _ => false

/-- The settled state of the promise of an invocation, if it has one. -/
def Task.state? : Task → Option (Settled JsValue)
  | .settled state => some state
  | _ => none

/-- The rejection reason of the promise of an invocation, if it rejected. -/
def Task.reason? : Task → Option JsError
  | .settled (.rejected reason) => some reason
  | _ => none

/-- A batch in flight: the invocations by input position, the trace, and the
positions in the order in which their promises settled. -/
structure Batch where
  tasks : List Task
  trace : Trace
  order : List Nat

/-- The expression `userIds.map(id => fetchUserData(id))`: the calls are made
one after the other, each running up to its first `await`. -/
def launch (net : Network) : Trace → List UserId → List Task × Trace
  | trace, [] => ([], trace)
  | trace, userId :: rest =>
      let (task, trace) := startFetchUserData net trace userId
      let (tasks, trace) := launch net trace rest
      (task :: tasks, trace)

/-- The event loop resumes the invocation at position `i`; nothing happens when
there is no such invocation or it has already finished. -/
def Batch.stepAt (b : Batch) (i : Nat) : Batch :=
  match b.tasks[i]? with
  | none => b
  | some task =>
      if task.isSettled then b
      else
        let (task, events) := resume task
        { tasks := b.tasks.set i task
          trace := b.trace ++ events
          order := if task.isSettled then b.order ++ [i] else b.order }

/-- An interleaving: the positions the event loop resumes, in order. -/
abbrev Schedule := List Nat

/-- Run the event loop: first along the schedule, then every invocation that is
still suspended is resumed, in input order, until all have finished. -/
def Batch.run (b : Batch) (schedule : Schedule) : Batch :=
  (schedule ++ List.range b.tasks.length ++ List.range b.tasks.length).foldl Batch.stepAt b

/-- The join `Promise.all`: rejects with the reason of the first promise that
rejected, otherwise fulfils with the values in input order once every promise
has fulfilled, otherwise stays pending (`none`). -/
def promiseAll (b : Batch) : Option (Settled (List JsValue)) :=
  match b.order.findSome? (fun i => (b.tasks[i]?).bind Task.reason?) with
  | some reason => some (.rejected reason)
  | none =>
      if b.tasks.all Task.isSettled then
        some (.fulfilled (b.tasks.filterMap Task.state? |>.map Settled.value))
      else none

/-- The join `Promise.allSettled`: fulfils with one result object per promise, in
input order, once every promise has settled, otherwise stays pending (`none`). -/
def promiseAllSettled (b : Batch) : Option (Settled (List (Settled JsValue))) :=
  if b.tasks.all Task.isSettled then some (.fulfilled (b.tasks.filterMap Task.state?))
  else none

/-- The promises of a batch after the fan-out and the run of the event loop. -/
def runBatch (net : Network) (trace : Trace) (userIds : List UserId)
    (schedule : Schedule) : Batch :=
  let (tasks, trace) := launch net trace userIds
  Batch.run { tasks := tasks, trace := trace, order := [] } schedule

/-- The function `fetchMultipleUsers`: map, `await Promise.all`, filter out `null`.
The first component is `none` when the awaited join never settles. -/
def fetchMultipleUsers (net : Network) (trace : Trace) (userIds : List UserId)
    (schedule : Schedule) : Option (Settled (List JsValue)) × Trace :=
  let b := runBatch net trace userIds schedule
  match promiseAll b with
  | none => (none, b.trace)
  | some (.rejected reason) => (some (.rejected reason), b.trace)
  | some (.fulfilled results) =>
      (some (.fulfilled (results.filter (fun user => !user.isNull))), b.trace)

/-- The function `fetchMultipleUsersSafe`: map, `await Promise.allSettled`, keep
the fulfilled results, take their values, filter out `null`.
The first component is `none` when the awaited join never settles. -/
def fetchMultipleUsersSafe (net : Network) (trace : Trace) (userIds : List UserId)
    (schedule : Schedule) : Option (Settled (List JsValue)) × Trace :=
  let b := runBatch net trace userIds schedule
  match promiseAllSettled b with
  | none => (none, b.trace)
  | some (.rejected reason) => (some (.rejected reason), b.trace)
  | some (.fulfilled results) =>
      (some (.fulfilled
        (((results.filter (fun result => result.isFulfilled)).map
          (fun result => result.value)).filter (fun user => !user.isNull))), b.trace)

/-! ## Vocabulary of the statements -/

/-- The value `response.json()` resolved with, when the lookup went through:
`fetch` resolved, the `ok` flag was set and the body decoded. -/
def Reply.decoded? : Reply → Option JsValue
  | .response true _ (.ok data) => some data
  | _ => none

/-- The value with which a lookup that received this answer fulfils: what the
`try` block returned, or the `null` of the `catch` block. -/
def lookupValue (reply : Reply) : JsValue :=
  match (tryBlock reply).1 with
  | .ok data => data
  | .error _ => .null

/-- The answers to the requests of a batch whose first request has sequence
number `n`, by input position. -/
def repliesFrom (net : Network) : Nat → List UserId → List Reply
  | _, [] => []
  | n, userId :: rest => net n (url userId) :: repliesFrom net (n + 1) rest

/-- The answers the network gives to a batch launched after `trace`. -/
def replies (net : Network) (trace : Trace) (userIds : List UserId) : List Reply :=
  repliesFrom net (numRequests trace) userIds

/-- An outcome is present when the promise fulfilled with a value that passes
the test `user !== null`; the `null` of the `catch` block is the absent outcome. -/
def isPresent : Settled JsValue → Bool
  | .fulfilled value => !value.isNull
  | .rejected _ => false

/-- One resumption, forgetting the host calls. -/
def step (task : Task) : Task := (resume task).1

/-- The state in which the promise of an invocation settles. -/
def Task.target : Task → Settled JsValue
  | .awaitFetch reply => .fulfilled (lookupValue reply)
  | .awaitJson (.ok data) => .fulfilled data
  | .awaitJson (.error _) => .fulfilled .null
  | .settled state => state

/-- A projection of events that ignores the host calls made after `fetch`. -/
def Quiet {β : Type} (f : Event → Option β) : Prop :=
  f .decode = none ∧ ∀ label error, f (.consoleError label error) = none

/-! ## Concrete remote sides -/

/-- A user record as the remote side serves it. -/
def resource (n : Int) : JsValue :=
  .obj [("id", .num n)]

/-- A remote side that knows users 1 and 3 and answers 404 for everything else. -/
def secondUserMissing : Network := fun _ address =>
  if address = "/api/users/1" then .response true 200 (.ok (resource 1))
  else if address = "/api/users/3" then .response true 200 (.ok (resource 3))
  else .response false 404 (.error { name := "SyntaxError", message := "Unexpected end of JSON input" })

/-- A remote side that answers every request with status 200 and the body `null`. -/
def nullBody : Network := fun _ _ =>
  .response true 200 (.ok .null)

/-- A remote side that answers the request for user 1 with status 200 and the
body `null`, and serves every other user the record of user 2. -/
def firstUserNull : Network := fun _ address =>
  if address = "/api/users/1" then .response true 200 (.ok .null)
  else .response true 200 (.ok (resource 2))

/-- A remote side that cannot be reached. -/
def offline : Network := fun _ _ =>
  .failure { name := "TypeError", message := "Failed to fetch" }

/-- A remote side that serves every user a record numbered by the request. -/
def allPresent : Network := fun n _ =>
  .response true 200 (.ok (resource n))

/-! ## The state machine of one invocation -/

theorem lookupValue_eq_getD (reply : Reply) :
    lookupValue reply = reply.decoded?.getD .null := by
  rcases reply with _ | ⟨ok, status, body⟩
  · rfl
  · cases ok <;> cases body <;> rfl

theorem target_step (task : Task) : (step task).target = task.target := by
  rcases task with (_ | ⟨ok, status, body⟩) | body | state
  · rfl
  · cases ok <;> cases body <;> rfl
  · cases body <;> rfl
  · rfl

theorem step_settled (state : Settled JsValue) : step (.settled state) = .settled state := rfl

theorem step_step (task : Task) : step (step task) = .settled task.target := by
  rcases task with (_ | ⟨ok, status, body⟩) | body | state
  · rfl
  · cases ok <;> cases body <;> rfl
  · cases body <;> rfl
  · rfl

theorem iterate_step (task : Task) : ∀ k, 2 ≤ k → step^[k] task = .settled task.target := by
  intro k hk
  obtain ⟨m, rfl⟩ : ∃ m, k = m + 2 := ⟨k - 2, by omega⟩
  rw [Function.iterate_add_apply]
  show step^[m] (step (step task)) = _
  rw [step_step]
  exact Function.iterate_fixed (step_settled _) m

theorem step_of_isSettled {task : Task} (h : task.isSettled = true) : step task = task := by
  cases task <;> simp_all [Task.isSettled, step, resume]

theorem resume_quiet {β : Type} {f : Event → Option β} (hf : Quiet f) (task : Task) :
    (resume task).2.filterMap f = [] := by
  obtain ⟨h1, h2⟩ := hf
  rcases task with (_ | ⟨ok, status, body⟩) | body | state
  · simp [resume, logFailure, h2]
  · cases ok <;> simp [resume, logFailure, h1, h2]
  · cases body <;> simp [resume, logFailure, h2]
  · simp [resume]

/-- The run of `fetchUserData` in one piece agrees with resuming its state
machine twice: same settled state, same host calls in the same order. -/
theorem fetchUserData_eq_resume (net : Network) (trace : Trace) (userId : UserId) :
    let started := startFetchUserData net trace userId
    let first := resume started.1
    let second := resume first.1
    fetchUserData net trace userId
      = (second.1.target, started.2 ++ first.2 ++ second.2)
      ∧ second.1.isSettled = true := by
  simp only [fetchUserData, startFetchUserData]
  rcases net (numRequests trace) (url userId) with _ | ⟨ok, status, body⟩
  · simp [tryBlock, resume, Task.target, Task.isSettled]
  · cases ok <;> cases body <;> simp [tryBlock, resume, Task.target, Task.isSettled]

/-! ## The event loop -/

theorem stepAt_length (b : Batch) (i : Nat) : (b.stepAt i).tasks.length = b.tasks.length := by
  unfold Batch.stepAt
  split
  · rfl
  · split <;> simp

theorem stepAt_getElem? (b : Batch) (i j : Nat) :
    (b.stepAt i).tasks[j]? = if i = j then (b.tasks[j]?).map step else b.tasks[j]? := by
  unfold Batch.stepAt
  split
  · next h =>
    by_cases hij : i = j
    · subst hij; simp [h]
    · simp [hij]
  · next task h =>
    by_cases hs : task.isSettled = true
    · by_cases hij : i = j
      · subst hij; simp [hs, h, step_of_isSettled hs]
      · simp [hs, hij]
    · by_cases hij : i = j
      · subst hij
        have hlt : i < b.tasks.length := (List.getElem?_eq_some_iff.1 h).1
        simp [hs, h, List.getElem?_set, hlt, step]
      · simp [hs, hij, List.getElem?_set]

theorem stepAt_trace {β : Type} {f : Event → Option β} (hf : Quiet f) (b : Batch) (i : Nat) :
    (b.stepAt i).trace.filterMap f = b.trace.filterMap f := by
  unfold Batch.stepAt
  split
  · rfl
  · split
    · rfl
    · simp [resume_quiet hf]

theorem foldl_stepAt_length (positions : List Nat) :
    ∀ b : Batch, (positions.foldl Batch.stepAt b).tasks.length = b.tasks.length := by
  induction positions with
  | nil => intro b; rfl
  | cons i rest ih => intro b; rw [List.foldl_cons, ih, stepAt_length]

theorem foldl_stepAt_trace {β : Type} {f : Event → Option β} (hf : Quiet f)
    (positions : List Nat) :
    ∀ b : Batch, (positions.foldl Batch.stepAt b).trace.filterMap f = b.trace.filterMap f := by
  induction positions with
  | nil => intro b; rfl
  | cons i rest ih => intro b; rw [List.foldl_cons, ih, stepAt_trace hf]

theorem foldl_stepAt_getElem? (positions : List Nat) :
    ∀ (b : Batch) (j : Nat),
      (positions.foldl Batch.stepAt b).tasks[j]? = (b.tasks[j]?).map (step^[positions.count j]) := by
  induction positions with
  | nil => intro b j; simp
  | cons i rest ih =>
    intro b j
    rw [List.foldl_cons, ih, stepAt_getElem?, List.count_cons]
    by_cases hij : i = j
    · subst hij
      simp [Option.map_map, Function.iterate_succ]
    · simp [hij]

/-- Every invocation of a batch finishes, in the state its answer determines,
whatever the schedule. -/
theorem run_tasks (b : Batch) (schedule : Schedule) :
    (b.run schedule).tasks = b.tasks.map (fun task => Task.settled task.target) := by
  apply List.ext_getElem?
  intro j
  unfold Batch.run
  rw [foldl_stepAt_getElem?, List.getElem?_map]
  by_cases hj : j < b.tasks.length
  · have hc : List.count j (List.range b.tasks.length) = 1 :=
      List.count_eq_one_of_mem (List.nodup_range _) (List.mem_range.2 hj)
    have h2 : 2 ≤ List.count j (schedule ++ List.range b.tasks.length ++ List.range b.tasks.length) := by
      simp only [List.count_append, hc]; omega
    rw [List.getElem?_eq_getElem hj, Option.map_some', Option.map_some', iterate_step _ _ h2]
  · rw [List.getElem?_eq_none (by omega)]
    rfl

theorem run_trace {β : Type} {f : Event → Option β} (hf : Quiet f) (b : Batch)
    (schedule : Schedule) : (b.run schedule).trace.filterMap f = b.trace.filterMap f :=
  foldl_stepAt_trace hf _ b

/-! ## The fan-out -/

theorem numRequests_start (trace : Trace) (userId : UserId) :
    numRequests (trace ++ [.invoke userId, .request (url userId)]) = numRequests trace + 1 := by
  simp [numRequests, List.countP_append, List.countP_cons, Event.isRequest]

theorem launch_tasks (net : Network) (userIds : List UserId) :
    ∀ trace : Trace,
      (launch net trace userIds).1 = (replies net trace userIds).map Task.awaitFetch := by
  induction userIds with
  | nil => intro trace; rfl
  | cons userId rest ih =>
    intro trace
    have h := ih (trace ++ [.invoke userId, .request (url userId)])
    simp only [replies, numRequests_start] at h
    simp [launch, startFetchUserData, replies, repliesFrom, h]

theorem launch_invoked (net : Network) (userIds : List UserId) :
    ∀ trace : Trace,
      (launch net trace userIds).2.filterMap Event.invoked?
        = trace.filterMap Event.invoked? ++ userIds := by
  induction userIds with
  | nil => intro trace; simp [launch]
  | cons userId rest ih =>
    intro trace
    have h := ih (trace ++ [.invoke userId, .request (url userId)])
    simp [launch, startFetchUserData, h, Event.invoked?]

theorem launch_requested (net : Network) (userIds : List UserId) :
    ∀ trace : Trace,
      (launch net trace userIds).2.filterMap Event.requested?
        = trace.filterMap Event.requested? ++ userIds.map url := by
  induction userIds with
  | nil => intro trace; simp [launch]
  | cons userId rest ih =>
    intro trace
    have h := ih (trace ++ [.invoke userId, .request (url userId)])
    simp [launch, startFetchUserData, h, Event.requested?]

theorem repliesFrom_length (net : Network) (userIds : List UserId) :
    ∀ n, (repliesFrom net n userIds).length = userIds.length := by
  induction userIds with
  | nil => intro n; rfl
  | cons userId rest ih => intro n; simp [repliesFrom, ih]

theorem replies_length (net : Network) (trace : Trace) (userIds : List UserId) :
    (replies net trace userIds).length = userIds.length :=
  repliesFrom_length net userIds _

theorem quiet_invoked : Quiet Event.invoked? := ⟨rfl, fun _ _ => rfl⟩

theorem quiet_requested : Quiet Event.requested? := ⟨rfl, fun _ _ => rfl⟩

theorem numRequests_eq (trace : Trace) :
    numRequests trace = (trace.filterMap Event.requested?).length := by
  induction trace with
  | nil => rfl
  | cons e rest ih =>
    cases e <;>
      simp_all [numRequests, List.countP_cons, Event.isRequest, Event.requested?,
        List.filterMap_cons]

/-- After the run every promise of the batch is fulfilled with the value of its
lookup, by input position. -/
theorem runBatch_tasks (net : Network) (trace : Trace) (userIds : List UserId)
    (schedule : Schedule) :
    (runBatch net trace userIds schedule).tasks
      = ((replies net trace userIds).map lookupValue).map
          (fun value => Task.settled (.fulfilled value)) := by
  simp only [runBatch, run_tasks, launch_tasks, List.map_map]
  rfl

theorem runBatch_invoked (net : Network) (trace : Trace) (userIds : List UserId)
    (schedule : Schedule) :
    (runBatch net trace userIds schedule).trace.filterMap Event.invoked?
      = trace.filterMap Event.invoked? ++ userIds := by
  simp only [runBatch, run_trace quiet_invoked, launch_invoked]

theorem runBatch_requested (net : Network) (trace : Trace) (userIds : List UserId)
    (schedule : Schedule) :
    (runBatch net trace userIds schedule).trace.filterMap Event.requested?
      = trace.filterMap Event.requested? ++ userIds.map url := by
  simp only [runBatch, run_trace quiet_requested, launch_requested]

/-! ## The joins -/

theorem filterMap_state_fulfilled (values : List JsValue) :
    (values.map (fun value => Task.settled (.fulfilled value))).filterMap Task.state?
      = values.map Settled.fulfilled := by
  induction values with
  | nil => rfl
  | cons value rest ih => simp_all [Task.state?]

/-- On promises that all fulfilled, `Promise.all` fulfils with their values. -/
theorem promiseAll_fulfilled (b : Batch) (values : List JsValue)
    (h : b.tasks = values.map (fun value => Task.settled (.fulfilled value))) :
    promiseAll b = some (.fulfilled values) := by
  have hnone : b.order.findSome? (fun i => (b.tasks[i]?).bind Task.reason?) = none := by
    rw [List.findSome?_eq_none_iff]
    intro i _
    rw [h, List.getElem?_map]
    cases values[i]? <;> simp [Task.reason?]
  have hall : b.tasks.all Task.isSettled = true := by
    rw [h]; simp [Task.isSettled]
  unfold promiseAll
  rw [hnone]
  simp only [hall, if_true]
  rw [h, filterMap_state_fulfilled]
  simp [List.map_map, Function.comp_def, Settled.value]

/-- On promises that all fulfilled, `Promise.allSettled` fulfils with one
fulfilled result object per promise. -/
theorem promiseAllSettled_fulfilled (b : Batch) (values : List JsValue)
    (h : b.tasks = values.map (fun value => Task.settled (.fulfilled value))) :
    promiseAllSettled b = some (.fulfilled (values.map Settled.fulfilled)) := by
  have hall : b.tasks.all Task.isSettled = true := by
    rw [h]; simp [Task.isSettled]
  unfold promiseAllSettled
  simp only [hall, if_true]
  rw [h, filterMap_state_fulfilled]

theorem keep_fulfilled_values (values : List JsValue) :
    ((values.map Settled.fulfilled).filter (fun result => result.isFulfilled)).map
      (fun result => result.value) = values := by
  induction values with
  | nil => rfl
  | cons value rest ih => simp_all [Settled.isFulfilled, Settled.value]

/-! ## The two batch functions, computed -/

theorem fetchMultipleUsers_eq (net : Network) (trace : Trace) (userIds : List UserId)
    (schedule : Schedule) :
    fetchMultipleUsers net trace userIds schedule
      = (some (.fulfilled
          (((replies net trace userIds).map lookupValue).filter (fun user => !user.isNull))),
         (runBatch net trace userIds schedule).trace) := by
  unfold fetchMultipleUsers
  simp only [promiseAll_fulfilled _ _ (runBatch_tasks net trace userIds schedule)]

theorem fetchMultipleUsersSafe_eq (net : Network) (trace : Trace) (userIds : List UserId)
    (schedule : Schedule) :
    fetchMultipleUsersSafe net trace userIds schedule
      = (some (.fulfilled
          (((replies net trace userIds).map lookupValue).filter (fun user => !user.isNull))),
         (runBatch net trace userIds schedule).trace) := by
  unfold fetchMultipleUsersSafe
  simp only [promiseAllSettled_fulfilled _ _ (runBatch_tasks net trace userIds schedule),
    keep_fulfilled_values]

/-! ## Single lookups -/

theorem fetchUserData_value (net : Network) (trace : Trace) (userId : UserId) :
    (fetchUserData net trace userId).1
      = .fulfilled (lookupValue (net (numRequests trace) (url userId))) := by
  simp only [fetchUserData, lookupValue]
  rcases net (numRequests trace) (url userId) with _ | ⟨ok, status, body⟩
  · rfl
  · cases ok <;> cases body <;> rfl

theorem fetchUserData_requested (net : Network) (trace : Trace) (userId : UserId) :
    (fetchUserData net trace userId).2.filterMap Event.requested?
      = trace.filterMap Event.requested? ++ [url userId] := by
  simp only [fetchUserData]
  rcases net (numRequests trace) (url userId) with _ | ⟨ok, status, body⟩
  · simp [tryBlock, Event.requested?, logFailure]
  · cases ok <;> cases body <;> simp [tryBlock, Event.requested?, logFailure]

theorem fetchUserData_numRequests (net : Network) (trace : Trace) (userId : UserId) :
    numRequests (fetchUserData net trace userId).2 = numRequests trace + 1 := by
  simp [numRequests_eq, fetchUserData_requested]

theorem lookupValue_of_failed {reply : Reply} (h : reply.decoded? = none) :
    lookupValue reply = .null := by
  rw [lookupValue_eq_getD, h]; rfl

theorem lookupValue_of_decoded {reply : Reply} {value : JsValue}
    (h : reply.decoded? = some value) : lookupValue reply = value := by
  rw [lookupValue_eq_getD, h]; rfl

theorem present_eq_decoded (answers : List Reply) :
    (answers.map lookupValue).filter (fun user => !user.isNull)
      = (answers.filterMap Reply.decoded?).filter (fun user => !user.isNull) := by
  induction answers with
  | nil => rfl
  | cons reply rest ih =>
    rw [List.map_cons, lookupValue_eq_getD]
    cases h : reply.decoded? with
    | none =>
      have hnull : JsValue.isNull JsValue.null = true := rfl
      simp [List.filterMap_cons, h, List.filter_cons, hnull, ih]
    | some value => simp [List.filterMap_cons, h, List.filter_cons, ih]

theorem present_length_le (answers : List Reply) :
    ((answers.map lookupValue).filter (fun user => !user.isNull)).length ≤ answers.length := by
  simpa using List.length_filter_le (fun user : JsValue => !user.isNull) (answers.map lookupValue)

theorem present_length_lt (answers : List Reply)
    (h : ∃ reply ∈ answers, reply.decoded? = none) :
    ((answers.map lookupValue).filter (fun user => !user.isNull)).length < answers.length := by
  obtain ⟨reply, hmem, hfail⟩ := h
  have hlt : ((answers.map lookupValue).filter (fun user => !user.isNull)).length
      < (answers.map lookupValue).length := by
    rw [List.length_filter_lt_length_iff_exists]
    exact ⟨lookupValue reply, List.mem_map_of_mem _ hmem, by
      simp [lookupValue_of_failed hfail, JsValue.isNull]⟩
  simpa using hlt

theorem present_eq_self (answers : List Reply)
    (h : ∀ reply ∈ answers, ∃ value, reply.decoded? = some value ∧ value.isNull = false) :
    (answers.map lookupValue).filter (fun user => !user.isNull) = answers.map lookupValue := by
  rw [List.filter_eq_self]
  intro user hmem
  obtain ⟨reply, hreply, rfl⟩ := List.mem_map.1 hmem
  obtain ⟨value, hvalue, hnull⟩ := h reply hreply
  simp [lookupValue_of_decoded hvalue, hnull]

theorem decoded_eq_some_lookupValue (answers : List Reply)
    (h : ∀ reply ∈ answers, ∃ value, reply.decoded? = some value ∧ value.isNull = false) :
    answers.map Reply.decoded? = (answers.map lookupValue).map some := by
  rw [List.map_map]
  apply List.map_congr_left
  intro reply hreply
  obtain ⟨value, hvalue, _⟩ := h reply hreply
  simp [lookupValue_of_decoded hvalue, hvalue]

/-! ## The claims -/

/-- C1, as it stands, fails: with users 1, 2, 3 and a 404 for user 2, the lookup
of user 2 fails, yet `fetchMultipleUsers` does not reject; it fulfils with the
records of users 1 and 3. -/
theorem fetchMultipleUsers_fulfils_despite_404 :
    (replies secondUserMissing [] [.num 1, .num 2, .num 3]).map Reply.decoded?
        = [some (resource 1), none, some (resource 3)]
      ∧ (fetchMultipleUsers secondUserMissing [] [.num 1, .num 2, .num 3] [1, 0, 2]).1
        = some (.fulfilled [resource 1, resource 3]) := by
  constructor <;> rfl

/-- C1, amended: when at least one lookup of the batch fails, `fetchMultipleUsers`
still completes normally, for every schedule, with the non-null lookup values in
input order, and that list is strictly shorter than the input. -/
theorem fetchMultipleUsers_fulfils_on_failure (net : Network) (trace : Trace)
    (userIds : List UserId) (schedule : Schedule)
    (h : ∃ reply ∈ replies net trace userIds, reply.decoded? = none) :
    ∃ users,
      (fetchMultipleUsers net trace userIds schedule).1 = some (.fulfilled users)
        ∧ users = ((replies net trace userIds).map lookupValue).filter (fun user => !user.isNull)
        ∧ users.length < userIds.length := by
  refine ⟨_, by rw [fetchMultipleUsers_eq], rfl, ?_⟩
  simpa [replies_length] using present_length_lt _ h

/-- The amended C1 at users 1, 2, 3 with a 404 for user 2. -/
theorem fetchMultipleUsers_fulfils_on_failure_witness :
    ∃ users,
      (fetchMultipleUsers secondUserMissing [] [.num 1, .num 2, .num 3] [2, 1]).1
          = some (.fulfilled users)
        ∧ users = ((replies secondUserMissing [] [.num 1, .num 2, .num 3]).map lookupValue).filter
            (fun user => !user.isNull)
        ∧ users.length < [UserId.num 1, .num 2, .num 3].length :=
  fetchMultipleUsers_fulfils_on_failure secondUserMissing [] [.num 1, .num 2, .num 3] [2, 1]
    ⟨secondUserMissing 1 (url (.num 2)), by simp [replies, repliesFrom, numRequests], rfl⟩

/-- C2, as it stands, fails: with users 1 and 2, where the lookup of user 1 goes
through with the decoded value `null` and user 2 is served, both lookups succeed,
yet `fetchMultipleUsersSafe` returns only the record of user 2: the entry of
user 1 is lost, and the list is shorter than the input although no lookup failed. -/
theorem fetchMultipleUsersSafe_loses_decoded_null :
    (replies firstUserNull [] [.num 1, .num 2]).map Reply.decoded?
        = [some .null, some (resource 2)]
      ∧ (fetchMultipleUsersSafe firstUserNull [] [.num 1, .num 2] [1, 0]).1
        = some (.fulfilled [resource 2]) := by
  constructor <;> rfl

/-- C2, amended: for every network, prior trace, input and schedule,
`fetchMultipleUsersSafe` fulfils with exactly the decoded values, other than
`null`, of the lookups that went through, in input order: the list is the stable
filter of the per-position lookup values, so it holds no `null`, loses and
duplicates no such value, does not depend on the schedule, and is strictly
shorter than the input as soon as one lookup fails. -/
theorem fetchMultipleUsersSafe_stable_filter (net : Network) (trace : Trace)
    (userIds : List UserId) (schedule : Schedule) :
    ∃ users,
      (fetchMultipleUsersSafe net trace userIds schedule).1 = some (.fulfilled users)
        ∧ users = ((replies net trace userIds).filterMap Reply.decoded?).filter
            (fun user => !user.isNull)
        ∧ users = ((replies net trace userIds).map lookupValue).filter (fun user => !user.isNull)
        ∧ (∀ user ∈ users, user.isNull = false)
        ∧ users.Sublist ((replies net trace userIds).map lookupValue)
        ∧ (∀ value ∈ (replies net trace userIds).filterMap Reply.decoded?,
            value.isNull = false → value ∈ users)
        ∧ ((∃ reply ∈ replies net trace userIds, reply.decoded? = none) →
            users.length < userIds.length) := by
  refine ⟨_, by rw [fetchMultipleUsersSafe_eq], present_eq_decoded _, rfl, ?_,
    List.filter_sublist _, ?_, ?_⟩
  · intro user huser
    simpa using (List.mem_filter.1 huser).2
  · intro value hvalue hnull
    rw [present_eq_decoded]
    exact List.mem_filter.2 ⟨hvalue, by simp [hnull]⟩
  · intro h
    simpa [replies_length] using present_length_lt _ h

/-- The amended C2 at users 1, 2, 3 with a 404 for user 2: the records of 1 and 3. -/
theorem fetchMultipleUsersSafe_stable_filter_witness :
    (fetchMultipleUsersSafe secondUserMissing [] [.num 1, .num 2, .num 3] [2, 2, 0, 1]).1
        = some (.fulfilled [resource 1, resource 3])
      ∧ [resource 1, resource 3].length < [UserId.num 1, .num 2, .num 3].length := by
  obtain ⟨users, hrun, -, hlist, -, -, -, hshort⟩ :=
    fetchMultipleUsersSafe_stable_filter secondUserMissing []
      [.num 1, .num 2, .num 3] [2, 2, 0, 1]
  have hfail : ∃ reply ∈ replies secondUserMissing [] [.num 1, .num 2, .num 3],
      reply.decoded? = none :=
    ⟨secondUserMissing 1 (url (.num 2)), by simp [replies, repliesFrom, numRequests], rfl⟩
  have hvalue : users = [resource 1, resource 3] := hlist.trans rfl
  subst hvalue
  exact ⟨hrun, hshort hfail⟩

/-- C3, as it stands, fails: a single user whose lookup goes through with the
decoded value `null` gives the empty list under both functions, not a list of
length one. -/
theorem batch_drops_decoded_null :
    (replies nullBody [] [.num 1]).map Reply.decoded? = [some .null]
      ∧ (fetchMultipleUsers nullBody [] [.num 1] []).1 = some (.fulfilled [])
      ∧ (fetchMultipleUsersSafe nullBody [] [.num 1] []).1 = some (.fulfilled []) := by
  refine ⟨?_, ?_, ?_⟩ <;> rfl

/-- C3, amended: when every lookup of the batch goes through and decodes to a value
other than `null`, both functions fulfil, under any schedules, with the same list,
which has the length of the input and holds at each position the decoded value
of the lookup at that position. -/
theorem batch_returns_all_decoded (net : Network) (trace : Trace) (userIds : List UserId)
    (schedule schedule₂ : Schedule)
    (h : ∀ reply ∈ replies net trace userIds,
      ∃ value, reply.decoded? = some value ∧ value.isNull = false) :
    ∃ users,
      (fetchMultipleUsers net trace userIds schedule).1 = some (.fulfilled users)
        ∧ (fetchMultipleUsersSafe net trace userIds schedule₂).1 = some (.fulfilled users)
        ∧ users.length = userIds.length
        ∧ (replies net trace userIds).map Reply.decoded? = users.map some := by
  refine ⟨(replies net trace userIds).map lookupValue, ?_, ?_, ?_, ?_⟩
  · rw [fetchMultipleUsers_eq, present_eq_self _ h]
  · rw [fetchMultipleUsersSafe_eq, present_eq_self _ h]
  · simp [replies_length]
  · exact decoded_eq_some_lookupValue _ h

/-- The amended C3 at users 1, 2, 3 against a remote side that serves them all. -/
theorem batch_returns_all_decoded_witness :
    ∃ users,
      (fetchMultipleUsers allPresent [] [.num 1, .num 2, .num 3] [0, 1]).1
          = some (.fulfilled users)
        ∧ (fetchMultipleUsersSafe allPresent [] [.num 1, .num 2, .num 3] [2]).1
          = some (.fulfilled users)
        ∧ users.length = [UserId.num 1, .num 2, .num 3].length
        ∧ (replies allPresent [] [.num 1, .num 2, .num 3]).map Reply.decoded? = users.map some :=
  batch_returns_all_decoded allPresent [] [.num 1, .num 2, .num 3] [0, 1] [2] (by
    intro reply hreply
    simp only [replies, repliesFrom, numRequests, List.countP_nil, List.mem_cons,
      List.mem_singleton, List.not_mem_nil, or_false] at hreply
    rcases hreply with rfl | rfl | rfl <;> exact ⟨_, rfl, rfl⟩)

/-- C4: whenever `fetch` rejects, or the response is not `ok`, or the response is
`ok` and decoding its body fails, `fetchUserData` fulfils with `null`; its promise
does not reject. -/
theorem fetchUserData_failure_gives_null (net : Network) (trace : Trace) (userId : UserId)
    (h : (∃ reason, net (numRequests trace) (url userId) = .failure reason)
      ∨ (∃ status body, net (numRequests trace) (url userId) = .response false status body)
      ∨ (∃ status reason,
          net (numRequests trace) (url userId) = .response true status (.error reason))) :
    (fetchUserData net trace userId).1 = .fulfilled .null := by
  rw [fetchUserData_value]
  rcases h with ⟨reason, h⟩ | ⟨status, body, h⟩ | ⟨status, reason, h⟩ <;> rw [h] <;> rfl

/-- The statement of C4 at a remote side that cannot be reached and at a 404. -/
theorem fetchUserData_failure_gives_null_witness :
    (fetchUserData offline [] (.num 7)).1 = .fulfilled .null
      ∧ (fetchUserData secondUserMissing [] (.num 2)).1 = .fulfilled .null :=
  ⟨fetchUserData_failure_gives_null offline [] (.num 7) (Or.inl ⟨_, rfl⟩),
   fetchUserData_failure_gives_null secondUserMissing [] (.num 2)
    (Or.inr (Or.inl ⟨404, _, rfl⟩))⟩

/-- C5, as it stands, fails: a lookup that goes through with status 200 and the
decoded value `null` fulfils with `null`, which is not a present outcome and is the
very outcome of a lookup against a remote side that cannot be reached. -/
theorem fetchUserData_decoded_null_is_absent :
    nullBody (numRequests []) (url (.num 1)) = .response true 200 (.ok .null)
      ∧ isPresent (fetchUserData nullBody [] (.num 1)).1 = false
      ∧ (fetchUserData nullBody [] (.num 1)).1 = (fetchUserData offline [] (.num 1)).1 := by
  refine ⟨?_, ?_, ?_⟩ <;> rfl

/-- C5, amended: when the response is `ok` and its body decodes to a value other
than `null`, `fetchUserData` fulfils with exactly that value, and the outcome is
present, hence different from the `null` outcome of a failed lookup. -/
theorem fetchUserData_success_gives_value (net : Network) (trace : Trace) (userId : UserId)
    (status : Nat) (value : JsValue)
    (h : net (numRequests trace) (url userId) = .response true status (.ok value))
    (hvalue : value.isNull = false) :
    (fetchUserData net trace userId).1 = .fulfilled value
      ∧ isPresent (fetchUserData net trace userId).1 = true
      ∧ (fetchUserData net trace userId).1 ≠ .fulfilled .null := by
  have hrun : (fetchUserData net trace userId).1 = .fulfilled value := by
    rw [fetchUserData_value, h]; rfl
  refine ⟨hrun, by simp [hrun, isPresent, hvalue], ?_⟩
  rw [hrun]
  intro heq
  injection heq with heq
  rw [heq] at hvalue
  exact Bool.noConfusion hvalue

/-- The amended C5 at user 3, whose record is served. -/
theorem fetchUserData_success_gives_value_witness :
    (fetchUserData secondUserMissing [] (.num 3)).1 = .fulfilled (resource 3)
      ∧ isPresent (fetchUserData secondUserMissing [] (.num 3)).1 = true
      ∧ (fetchUserData secondUserMissing [] (.num 3)).1 ≠ .fulfilled .null :=
  fetchUserData_success_gives_value secondUserMissing [] (.num 3) 200 (resource 3) rfl rfl

/-- C6: for every network, prior trace, input and schedule, `fetchMultipleUsersSafe`
settles, and it fulfils with a list no longer than the input; it neither rejects
nor stays pending. -/
theorem fetchMultipleUsersSafe_never_fails (net : Network) (trace : Trace)
    (userIds : List UserId) (schedule : Schedule) :
    ∃ users,
      (fetchMultipleUsersSafe net trace userIds schedule).1 = some (.fulfilled users)
        ∧ users.length ≤ userIds.length := by
  refine ⟨_, by rw [fetchMultipleUsersSafe_eq], ?_⟩
  simpa [replies_length] using present_length_le (replies net trace userIds)

/-- C7: on the empty input both functions fulfil with the empty list and add
nothing to the trace: started on the empty trace they leave it empty, so there is
no entry into `fetchUserData` and no request. -/
theorem empty_batch (net : Network) (trace : Trace) (schedule : Schedule) :
    fetchMultipleUsers net trace [] schedule = (some (.fulfilled []), trace)
      ∧ fetchMultipleUsersSafe net trace [] schedule = (some (.fulfilled []), trace)
      ∧ (fetchMultipleUsers net [] [] schedule).2 = []
      ∧ (fetchMultipleUsersSafe net [] [] schedule).2 = [] := by
  have hrun : ∀ t : Trace, runBatch net t [] schedule = ⟨[], t, []⟩ := by
    intro t
    simp only [runBatch, launch, Batch.run, List.length_nil, List.range_zero, List.append_nil]
    induction schedule with
    | nil => rfl
    | cons i rest ih => simpa [List.foldl_cons, Batch.stepAt] using ih
  refine ⟨?_, ?_, ?_, ?_⟩
  · simp [fetchMultipleUsers, hrun, promiseAll]
  · simp [fetchMultipleUsersSafe, hrun, promiseAllSettled]
  · simp [fetchMultipleUsers, hrun, promiseAll]
  · simp [fetchMultipleUsersSafe, hrun, promiseAllSettled]

/-- C8: in a batch run of either function, under any schedule, the entries into
`fetchUserData` added to the trace are exactly the input identifiers, one per
position and in input order; the requests added are exactly their addresses, so
the request count grows by the length of the input and every identifier is looked
up as often as it occurs; the join receives one settled promise per position;
and a single `fetchUserData` issues exactly one request whatever the answer. -/
theorem one_lookup_per_key (net : Network) (trace : Trace) (userIds : List UserId)
    (schedule : Schedule) :
    (fetchMultipleUsersSafe net trace userIds schedule).2.filterMap Event.invoked?
        = trace.filterMap Event.invoked? ++ userIds
      ∧ (fetchMultipleUsersSafe net trace userIds schedule).2.filterMap Event.requested?
        = trace.filterMap Event.requested? ++ userIds.map url
      ∧ numRequests (fetchMultipleUsersSafe net trace userIds schedule).2
        = numRequests trace + userIds.length
      ∧ (∀ userId,
          ((fetchMultipleUsersSafe net trace userIds schedule).2.filterMap Event.invoked?).count
              userId
            = (trace.filterMap Event.invoked?).count userId + userIds.count userId)
      ∧ (fetchMultipleUsers net trace userIds schedule).2
        = (fetchMultipleUsersSafe net trace userIds schedule).2
      ∧ (runBatch net trace userIds schedule).tasks.length = userIds.length
      ∧ (runBatch net trace userIds schedule).tasks.all Task.isSettled = true
      ∧ ∀ userId, numRequests (fetchUserData net trace userId).2 = numRequests trace + 1 := by
  have htrace : (fetchMultipleUsersSafe net trace userIds schedule).2
      = (runBatch net trace userIds schedule).trace := by
    rw [fetchMultipleUsersSafe_eq]
  rw [htrace, numRequests_eq, numRequests_eq, runBatch_invoked, runBatch_requested]
  refine ⟨rfl, rfl, by simp, fun userId => by simp, by rw [fetchMultipleUsers_eq], ?_, ?_,
    fun userId => ?_⟩
  · simp [runBatch_tasks, replies_length]
  · simp [runBatch_tasks, Task.isSettled]
  · rw [← numRequests_eq]; exact fetchUserData_numRequests net trace userId

/-- C9, as it stands, fails: against a remote side that answers both requests with
status 200 and the body `null`, two successive lookups of one user both go
through, yet neither outcome is present. -/
theorem fetchUserData_twice_decoded_null :
    nullBody 0 (url (.str "alice")) = .response true 200 (.ok .null)
      ∧ nullBody 1 (url (.str "alice")) = .response true 200 (.ok .null)
      ∧ isPresent (fetchUserData nullBody [] (.str "alice")).1 = false
      ∧ isPresent
          (fetchUserData nullBody (fetchUserData nullBody [] (.str "alice")).2
            (.str "alice")).1 = false := by
  refine ⟨?_, ?_, ?_, ?_⟩ <;> rfl

/-- C9, amended: when the remote side gives two successive lookups of one user the
same answer and the lookup goes through, both invocations fulfil with the same
outcome, the decoded value; both outcomes are present when that value is not
`null`. -/
theorem fetchUserData_twice (net : Network) (trace : Trace) (userId : UserId)
    (status : Nat) (value : JsValue)
    (hfirst : net (numRequests trace) (url userId) = .response true status (.ok value))
    (hsecond : net (numRequests trace + 1) (url userId) = net (numRequests trace) (url userId)) :
    (fetchUserData net (fetchUserData net trace userId).2 userId).1
        = (fetchUserData net trace userId).1
      ∧ (fetchUserData net trace userId).1 = .fulfilled value
      ∧ (value.isNull = false →
          isPresent (fetchUserData net trace userId).1 = true
            ∧ isPresent (fetchUserData net (fetchUserData net trace userId).2 userId).1 = true) := by
  have h1 : (fetchUserData net trace userId).1 = .fulfilled value := by
    rw [fetchUserData_value, hfirst]; rfl
  have h2 : (fetchUserData net (fetchUserData net trace userId).2 userId).1
      = .fulfilled value := by
    rw [fetchUserData_value, fetchUserData_numRequests, hsecond, hfirst]; rfl
  refine ⟨h2.trans h1.symm, h1, fun hvalue => ?_⟩
  rw [h1, h2]
  simp [isPresent, hvalue]

/-- The amended C9 at user 1, whose record is served on both lookups. -/
theorem fetchUserData_twice_witness :
    (fetchUserData secondUserMissing (fetchUserData secondUserMissing [] (.num 1)).2 (.num 1)).1
        = (fetchUserData secondUserMissing [] (.num 1)).1
      ∧ (fetchUserData secondUserMissing [] (.num 1)).1 = .fulfilled (resource 1)
      ∧ (JsValue.isNull (resource 1) = false →
          isPresent (fetchUserData secondUserMissing [] (.num 1)).1 = true
            ∧ isPresent (fetchUserData secondUserMissing
                (fetchUserData secondUserMissing [] (.num 1)).2 (.num 1)).1 = true) :=
  fetchUserData_twice secondUserMissing [] (.num 1) 200 (resource 1) rfl rfl

/-- C10: for every network, prior trace and input, `fetchMultipleUsers` and
`fetchMultipleUsersSafe` settle alike: both fulfil with the same list under any
two schedules, and under one schedule they also leave the same trace. -/
theorem batch_functions_coincide (net : Network) (trace : Trace) (userIds : List UserId)
    (schedule schedule₂ : Schedule) :
    (fetchMultipleUsers net trace userIds schedule).1
        = (fetchMultipleUsersSafe net trace userIds schedule₂).1
      ∧ fetchMultipleUsers net trace userIds schedule
        = fetchMultipleUsersSafe net trace userIds schedule
      ∧ ∃ users, (fetchMultipleUsers net trace userIds schedule).1 = some (.fulfilled users) := by
  refine ⟨?_, ?_, _, by rw [fetchMultipleUsers_eq]⟩
  · rw [fetchMultipleUsers_eq, fetchMultipleUsersSafe_eq]
  · rw [fetchMultipleUsers_eq, fetchMultipleUsersSafe_eq]

end JavascriptAsync
